import Mathlib

/-!
Shallow embedding of the form-intake backend (src/server.js).

The program is an Express application with two multipart endpoints,
POST /api/penelitian (research) and POST /api/magang (internship).
Each endpoint runs, in order: a required-field middleware
(validateResearchForm / validateInternshipForm), a required-file
middleware (validateResearchFiles / validateInternshipFiles), then a
handler that uploads each file slot to Firebase storage via
uploadFileToFirebase (sequentially awaited) and appends one document
to a Firestore collection with a server-assigned timestamp sentinel.

The embedding models the request body and file mapping as association
lists, the blob store and the document collection as explicit output
lists, the fallible externals (write streams, the append call) through
an environment of outcome oracles, and the sequencing of the awaited
operations as an explicit event trace.
-/

set_option autoImplicit false

namespace GovService

/-- One uploaded multipart file part as multer presents it to the
handlers: original client filename, client-declared MIME type, and the
raw byte buffer (memory storage). -/
structure FileUpload where
  originalname : String
  mimetype : String
  buffer : List Nat
  deriving DecidableEq

/-- The parsed form-field mapping (req.body): field name to string value. -/
abbrev Body := List (String × String)

/-- The parsed file mapping (req.files from upload.fields): slot name to
the list of files received for that slot. -/
abbrev Files := List (String × List FileUpload)

/-- JavaScript property lookup on an object modelled as an association
list: the first binding for the key, none when the key is absent. -/
def lookupKey {α : Type} (key : String) : List (String × α) → Option α
  | [] => none
  | (k, v) :: rest => if k = key then some v else lookupKey key rest

/-- Truthiness of req.body[field] in the validators: false exactly when
the field is absent (undefined) or the empty string. -/
def fieldPresent (body : Body) (f : String) : Bool :=
  match lookupKey f body with
  | none => false
  | some v => !(v == "")

/-- The required-field loop shared by validateResearchForm and
validateInternshipForm: the first field of the schema list failing the
truthiness test, or none when every field passes. -/
def firstMissingField (body : Body) : List String → Option String
  | [] => none
  | f :: rest => if fieldPresent body f then firstMissingField body rest else some f

/-- Response message for a missing field. -/
def missingFieldMessage (f : String) : String := f ++ " is required"

/-- Outcome of the file-validation middleware when a slot fails. -/
inductive FileErr where
  | missing (slot : String)
  | badMime (slot : String)
  deriving DecidableEq

/-- allowedMimeTypes in validateResearchFiles / validateInternshipFiles. -/
def allowedMimeTypes : List String := ["application/pdf", "image/jpeg", "image/png"]

/-- The required-file loop shared by validateResearchFiles and
validateInternshipFiles: a slot fails as missing when req.files[slot]
is absent or the empty list, and as badMime when the first file in the
slot has a MIME type outside allowedMimeTypes; the first failing slot
in schema order is reported, none when every slot passes. -/
def checkFiles (files : Files) : List String → Option FileErr
  | [] => none
  | s :: rest =>
    match lookupKey s files with
    | none => some (FileErr.missing s)
    | some [] => some (FileErr.missing s)
    | some (f :: _) =>
      if allowedMimeTypes.contains f.mimetype then checkFiles files rest
      else some (FileErr.badMime s)

/-- Response message of the file-validation middleware. -/
def fileErrMessage : FileErr → String
  | FileErr.missing s => "File " ++ s ++ " is required"
  | FileErr.badMime s => "File " ++ s ++ " must be a PDF, JPEG, or PNG"

/-- The first file of a slot, req.files[slot][0], when the slot is
present and non-empty. -/
def slotFile (files : Files) (s : String) : Option FileUpload :=
  match lookupKey s files with
  | some (f :: _) => some f
  | _ => none

/-- A slot passes the file validator: present, non-empty, allowed MIME
type of its first file. -/
def slotOk (files : Files) (s : String) : Bool :=
  match slotFile files s with
  | some f => allowedMimeTypes.contains f.mimetype
  | none => false

/-- validateResearchForm: required research fields in source order. -/
def researchRequiredFields : List String :=
  ["letterNumber", "name", "researcherName", "address", "inputValue",
   "institution", "occupation", "judulPenelitian", "researchField",
   "tujuanPenelitian", "supervisorName", "teamMembers", "statusPenelitian",
   "researchPeriod", "researchLocation"]

/-- validateInternshipForm: required internship fields in source order. -/
def internshipRequiredFields : List String :=
  ["letterNumber", "applicantsName", "address", "inputValue", "institution",
   "occupation", "judul", "supervisorName", "tujuanPermohonan", "teamMembers",
   "statusPermohonan", "period", "location"]

/-- validateResearchForm as a pure check on the parsed body. -/
def validateResearchForm (body : Body) : Option String :=
  firstMissingField body researchRequiredFields

/-- validateInternshipForm as a pure check on the parsed body. -/
def validateInternshipForm (body : Body) : Option String :=
  firstMissingField body internshipRequiredFields

/-- requiredFiles of validateResearchFiles, in source order. -/
def researchRequiredFiles : List String :=
  ["suratPengantarFile", "proposalFile", "ktpFile"]

/-- requiredFiles of validateInternshipFiles, in source order. -/
def internshipRequiredFiles : List String :=
  ["suratPermohonanFile", "proposalFile", "ktpFile"]

/-- validateResearchFiles as a pure check on the parsed file mapping. -/
def validateResearchFiles (files : Files) : Option FileErr :=
  checkFiles files researchRequiredFiles

/-- validateInternshipFiles as a pure check on the parsed file mapping. -/
def validateInternshipFiles (files : Files) : Option FileErr :=
  checkFiles files internshipRequiredFiles

/-- Characters left unescaped by the JavaScript encodeURIComponent. -/
def uriUnreserved (c : Char) : Bool :=
  c.isAlphanum || c == '-' || c == '_' || c == '.' || c == '!' || c == '~' ||
    c == '*' || c == Char.ofNat 39 || c == '(' || c == ')'

/-- Upper-case hexadecimal digit for a value below 16. -/
def hexDigit (n : Nat) : Char :=
  if n < 10 then Char.ofNat (48 + n) else Char.ofNat (55 + n)

/-- Percent-encoding of one byte. -/
def percentEncodeByte (b : Nat) : List Char :=
  ['%', hexDigit (b / 16), hexDigit (b % 16)]

/-- UTF-8 bytes of one character. -/
def utf8Bytes (c : Char) : List Nat :=
  let n := c.toNat
  if n < 128 then [n]
  else if n < 2048 then [192 + n / 64, 128 + n % 64]
  else if n < 65536 then [224 + n / 4096, 128 + (n / 64) % 64, 128 + n % 64]
  else [240 + n / 262144, 128 + (n / 4096) % 64, 128 + (n / 64) % 64, 128 + n % 64]

/-- The JavaScript encodeURIComponent, used on the blob name inside the
public URL. -/
def encodeURIComponent (s : String) : String :=
  String.mk (s.data.flatMap (fun c =>
    if uriUnreserved c then [c] else (utf8Bytes c).flatMap percentEncodeByte))

/-- The public URL constructed manually in the finish callback of
uploadFileToFirebase: a pure function of the bucket name and the blob
name, with no further round trip. -/
def publicUrl (bucketName blobName : String) : String :=
  "https://firebasestorage.googleapis.com/v0/b/" ++ bucketName ++ "/o/" ++
    encodeURIComponent blobName ++ "?alt=media"

/-- An object finalized in the storage bucket: blob name, content type
of the write-stream metadata, and the bytes written to the stream. -/
structure StoredObject where
  name : String
  contentType : String
  bytes : List Nat
  deriving DecidableEq

/-- uploadFileToFirebase: names the blob uuid ++ underscore ++ original
filename, opens a write stream whose metadata content type is the
declared MIME type of the file, and ends the stream with the whole
buffer. The streamOk flag is the outcome of the stream: on finish the
promise resolves with the manually constructed public URL and the blob
is finalized; on a stream error the promise rejects and no finalized
object results. -/
def uploadFileToFirebase (bucketName uuid : String) (streamOk : Bool)
    (file : FileUpload) : Except Unit (StoredObject × String) :=
  let blobName := uuid ++ "_" ++ file.originalname
  if streamOk then
    Except.ok
      ({ name := blobName, contentType := file.mimetype, bytes := file.buffer },
       publicUrl bucketName blobName)
  else
    Except.error ()

/-- The external world of one request: the bucket name, the fresh
identifier the uuid generator returns for the i-th upload of the
request, whether the i-th write stream finishes (true) or errors
(false), and whether the Firestore add call succeeds. -/
structure Env where
  bucketName : String
  uuid : Nat → String
  streamOk : Nat → Bool
  appendOk : Bool

/-- Observable await points of the handler body, in the order they are
reached: start and completion of each per-slot upload, and start and
completion of the record append. -/
inductive Event where
  | uploadStart (slot : String)
  | uploadFinish (slot : String)
  | appendStart
  | appendFinish
  deriving DecidableEq

/-- The sequential upload section of the handler body: for each slot in
order, the handler evaluates req.files[slot] for truthiness (absent
slot: the url variable becomes null and no upload runs), and otherwise
awaits uploadFileToFirebase on the first file of the slot before moving
to the next slot. A stream error rejects and control jumps to the catch
block, so later slots are not attempted; an upload on a present but
empty slot list dereferences an undefined element and also rejects
before any stream activity. Returns the finalized objects in order, the
event trace, and either the per-slot URL variables or the thrown error. -/
def runUploads (env : Env) (files : Files) :
    List String → Nat → List StoredObject × List Event × Except Unit (List (Option String))
  | [], _ => ([], [], Except.ok [])
  | s :: rest, i =>
    match lookupKey s files with
    | none =>
      match runUploads env files rest i with
      | (st, tr, Except.ok us) => (st, tr, Except.ok (none :: us))
      | (st, tr, Except.error e) => (st, tr, Except.error e)
    | some [] => ([], [], Except.error ())
    | some (f :: _) =>
      match uploadFileToFirebase env.bucketName (env.uuid i) (env.streamOk i) f with
      | Except.ok (obj, url) =>
        match runUploads env files rest (i + 1) with
        | (st, tr, Except.ok us) =>
          (obj :: st, Event.uploadStart s :: Event.uploadFinish s :: tr,
           Except.ok (some url :: us))
        | (st, tr, Except.error e) =>
          (obj :: st, Event.uploadStart s :: Event.uploadFinish s :: tr,
           Except.error e)
      | Except.error _ => ([], [Event.uploadStart s], Except.error ())

/-- The timestamp field of the appended document: the
FieldValue.serverTimestamp sentinel resolved by the server at write
time, never a client-supplied string. -/
inductive Timestamp where
  | server
  | client (s : String)
  deriving DecidableEq

/-- One document appended to Firestore: destination collection path,
the destructured form-field values, the per-slot URL fields, and the
timestamp field. -/
structure Record where
  collection : String
  fields : List (String × String)
  urls : List (String × Option String)
  timestamp : Timestamp
  deriving DecidableEq

/-- The per-service-type parameters of the two otherwise identical
endpoints: field schema, file-slot schema, URL field names of the
document, and the destination collection path. -/
structure ServiceConfig where
  requiredFields : List String
  requiredFiles : List String
  urlFieldNames : List String
  collectionPath : String

/-- The document built in the add call: every destructured field with
its submitted value, one URL field per slot, and the server timestamp
sentinel. -/
def mkRecord (cfg : ServiceConfig) (body : Body) (urls : List (Option String)) : Record :=
  { collection := cfg.collectionPath
    fields := cfg.requiredFields.map (fun f => (f, (lookupKey f body).getD ""))
    urls := cfg.urlFieldNames.zip urls
    timestamp := Timestamp.server }

/-- One multipart request after parsing. -/
structure Request where
  body : Body
  files : Files

/-- The response, the bucket contents, the appended documents, and the
event trace produced by one request. -/
structure HandlerResult where
  status : Nat
  message : String
  stored : List StoredObject
  records : List Record
  trace : List Event
  deriving DecidableEq

/-- The full endpoint pipeline: field middleware, file middleware, then
the handler body (sequential uploads, Firestore add, JSON response);
any rejection inside the try block is caught and answered with the one
generic 500 message. -/
def handleForm (cfg : ServiceConfig) (env : Env) (req : Request) : HandlerResult :=
  match firstMissingField req.body cfg.requiredFields with
  | some f =>
    { status := 400, message := missingFieldMessage f,
      stored := [], records := [], trace := [] }
  | none =>
    match checkFiles req.files cfg.requiredFiles with
    | some e =>
      { status := 400, message := fileErrMessage e,
        stored := [], records := [], trace := [] }
    | none =>
      match runUploads env req.files cfg.requiredFiles 0 with
      | (st, tr, Except.error _) =>
        { status := 500, message := "Terjadi kesalahan saat menyimpan data",
          stored := st, records := [], trace := tr }
      | (st, tr, Except.ok urls) =>
        if env.appendOk then
          { status := 200, message := "Data berhasil disimpan", stored := st,
            records := [mkRecord cfg req.body urls],
            trace := tr ++ [Event.appendStart, Event.appendFinish] }
        else
          { status := 500, message := "Terjadi kesalahan saat menyimpan data",
            stored := st, records := [],
            trace := tr ++ [Event.appendStart] }

/-- POST /api/penelitian parameters. -/
def researchConfig : ServiceConfig :=
  { requiredFields := researchRequiredFields
    requiredFiles := researchRequiredFiles
    urlFieldNames := ["suratPengantarUrl", "proposalUrl", "ktpUrl"]
    collectionPath := "pelayanan/penelitian/data" }

/-- POST /api/magang parameters. -/
def magangConfig : ServiceConfig :=
  { requiredFields := internshipRequiredFields
    requiredFiles := internshipRequiredFiles
    urlFieldNames := ["suratPermohonanUrl", "proposalUrl", "ktpUrl"]
    collectionPath := "pelayanan/magang/magang" }

/-- The research endpoint. -/
def handlePenelitian : Env → Request → HandlerResult := handleForm researchConfig

/-- The internship endpoint. -/
def handleMagang : Env → Request → HandlerResult := handleForm magangConfig

/-- Observable response of the field-validation middleware: the 400
response it sends, or none when it calls next(). -/
def fieldValidatorResponse (body : Body) (fields : List String) : Option (Nat × String) :=
  (firstMissingField body fields).map (fun f => (400, missingFieldMessage f))

/-- Observable response of the file-validation middleware: the 400
response it sends, or none when it calls next(). -/
def fileValidatorResponse (files : Files) (slots : List String) : Option (Nat × String) :=
  (checkFiles files slots).map (fun e => (400, fileErrMessage e))

/-! ### Validator lemmas -/

theorem firstMissingField_eq_none_iff (body : Body) :
    ∀ fs : List String,
      (firstMissingField body fs = none ↔ ∀ f ∈ fs, fieldPresent body f = true)
  | [] => by simp [firstMissingField]
  | f :: rest => by
    cases h : fieldPresent body f with
    | true => simp [firstMissingField, h, firstMissingField_eq_none_iff body rest]
    | false => simp [firstMissingField, h]

theorem firstMissingField_first (body : Body) (f : String)
    (hf : fieldPresent body f = false) :
    ∀ pre : List String, (∀ g ∈ pre, fieldPresent body g = true) →
      ∀ post : List String, firstMissingField body (pre ++ f :: post) = some f
  | [], _, post => by simp [firstMissingField, hf]
  | g :: rest, hpre, post => by
    have hg : fieldPresent body g = true := hpre g (by simp)
    have : ∀ t ∈ rest, fieldPresent body t = true := fun t ht => hpre t (by simp [ht])
    simp only [List.cons_append, firstMissingField, hg, if_true]
    exact firstMissingField_first body f hf rest this post

theorem slotFile_isSome_iff (files : Files) (s : String) :
    (slotFile files s).isSome = true ↔ ∃ f l, lookupKey s files = some (f :: l) := by
  unfold slotFile
  rcases h : lookupKey s files with _ | fs
  · simp
  · cases fs with
    | nil => simp
    | cons f l => simp

theorem checkFiles_eq_none_iff (files : Files) :
    ∀ slots : List String,
      (checkFiles files slots = none ↔ ∀ s ∈ slots, slotOk files s = true)
  | [] => by simp [checkFiles]
  | s :: rest => by
    rcases h : lookupKey s files with _ | fs
    · simp [checkFiles, h, slotOk, slotFile]
    · cases fs with
      | nil => simp [checkFiles, h, slotOk, slotFile]
      | cons f l =>
        by_cases hm : f.mimetype ∈ allowedMimeTypes
        · simp [checkFiles, h, hm, slotOk, slotFile, checkFiles_eq_none_iff files rest]
        · simp [checkFiles, h, hm, slotOk, slotFile]

theorem checkFiles_cons_ok (files : Files) (t : String) (rest : List String)
    (ht : slotOk files t = true) :
    checkFiles files (t :: rest) = checkFiles files rest := by
  rcases h : lookupKey t files with _ | fs
  · simp [slotOk, slotFile, h] at ht
  · cases fs with
    | nil => simp [slotOk, slotFile, h] at ht
    | cons f l =>
      have hm : f.mimetype ∈ allowedMimeTypes := by
        simpa [slotOk, slotFile, h] using ht
      simp [checkFiles, h, hm]

theorem checkFiles_first_fail (files : Files) (s : String)
    (hs : slotOk files s = false) :
    ∀ pre : List String, (∀ t ∈ pre, slotOk files t = true) →
      ∀ post : List String,
        checkFiles files (pre ++ s :: post) =
          some (if (slotFile files s).isSome then FileErr.badMime s
                else FileErr.missing s)
  | [], _, post => by
    rcases h : lookupKey s files with _ | fs
    · simp [checkFiles, h, slotFile]
    · cases fs with
      | nil => simp [checkFiles, h, slotFile]
      | cons f l =>
        have hm : f.mimetype ∉ allowedMimeTypes := by
          simpa [slotOk, slotFile, h] using hs
        simp [checkFiles, h, hm, slotFile]
  | t :: rest, hpre, post => by
    have ht : slotOk files t = true := hpre t (by simp)
    have htl : ∀ u ∈ rest, slotOk files u = true := fun u hu => hpre u (by simp [hu])
    rw [List.cons_append, checkFiles_cons_ok files t _ ht]
    exact checkFiles_first_fail files s hs rest htl post

/-! ### Claim C4: the field validator reports the first missing field -/

/-- C4: for a form-field mapping whose first missing field in schema
order is f (every field before it is present and non-empty, the fields
after it arbitrary and unchecked), the field-validation middleware
responds 400 with the message naming exactly f. -/
theorem c4_field_validator (body : Body) (fields pre post : List String) (f : String)
    (hsplit : fields = pre ++ f :: post)
    (hpre : ∀ g ∈ pre, fieldPresent body g = true)
    (hf : fieldPresent body f = false) :
    fieldValidatorResponse body fields = some (400, f ++ " is required") := by
  subst hsplit
  rw [fieldValidatorResponse, firstMissingField_first body f hf pre hpre post]
  rfl

/-! ### Claim C3: the file validator and its first-failure behavior -/

/-- C3: when every slot before s passes and s fails, the file-validation
middleware responds 400 naming s: with the missing-file message when s
is absent or empty, with the MIME message when s is present but its
type is not an allowed one; and it calls next() exactly when every
required slot is present with an allowed MIME type. -/
theorem c3_file_validator (files : Files) (slots pre post : List String) (s : String)
    (hsplit : slots = pre ++ s :: post)
    (hpre : ∀ t ∈ pre, slotOk files t = true)
    (hs : slotOk files s = false) :
    ((slotFile files s).isSome = false →
      fileValidatorResponse files slots = some (400, "File " ++ s ++ " is required")) ∧
    ((slotFile files s).isSome = true →
      fileValidatorResponse files slots =
        some (400, "File " ++ s ++ " must be a PDF, JPEG, or PNG")) ∧
    (∀ slots2 : List String,
      fileValidatorResponse files slots2 = none ↔ ∀ t ∈ slots2, slotOk files t = true) := by
  subst hsplit
  have hcf := checkFiles_first_fail files s hs pre hpre post
  refine ⟨fun hnone => ?_, fun hsome => ?_, fun slots2 => ?_⟩
  · rw [fileValidatorResponse, hcf, hnone]
    rfl
  · rw [fileValidatorResponse, hcf, hsome]
    rfl
  · rw [fileValidatorResponse, Option.map_eq_none']
    exact checkFiles_eq_none_iff files slots2

/-! ### Trace shape of the sequential upload section -/

/-- A trace of completed uploads run strictly one at a time: a sequence
of start and finish pairs, each finish before the next start. -/
def pairedUploads : List Event → Bool
  | [] => true
  | Event.uploadStart s :: Event.uploadFinish t :: rest => s == t && pairedUploads rest
  | _ => false

/-- A sequential upload trace that may end in one upload that started
and never finished (the stream that errored). -/
def sequentialUploads : List Event → Bool
  | [] => true
  | [Event.uploadStart _] => true
  | Event.uploadStart s :: Event.uploadFinish t :: rest => s == t && sequentialUploads rest
  | _ => false

theorem sequentialUploads_of_paired :
    ∀ tr : List Event, pairedUploads tr = true → sequentialUploads tr = true
  | [], _ => rfl
  | Event.uploadStart s :: Event.uploadFinish t :: rest, h => by
    simp only [pairedUploads, Bool.and_eq_true] at h
    simp only [sequentialUploads, Bool.and_eq_true]
    exact ⟨h.1, sequentialUploads_of_paired rest h.2⟩

theorem runUploads_trace (env : Env) (files : Files) :
    ∀ (slots : List String) (i : Nat) (st : List StoredObject) (tr : List Event)
      (r : Except Unit (List (Option String))),
      runUploads env files slots i = (st, tr, r) →
      sequentialUploads tr = true ∧
      ∀ us, r = Except.ok us → pairedUploads tr = true
  | [], i, st, tr, r, h => by
    simp only [runUploads, Prod.mk.injEq] at h
    obtain ⟨h1, h2, h3⟩ := h
    subst h1; subst h2; subst h3
    exact ⟨rfl, fun us _ => rfl⟩
  | s :: rest, i, st, tr, r, h => by
    rcases hl : lookupKey s files with _ | fs
    · rw [runUploads, hl] at h
      rcases hrec : runUploads env files rest i with ⟨st2, tr2, r2⟩
      have ih := runUploads_trace env files rest i st2 tr2 r2 hrec
      rw [hrec] at h
      cases r2 with
      | ok us2 =>
        simp only [Prod.mk.injEq] at h
        obtain ⟨h1, h2, h3⟩ := h
        subst h1; subst h2; subst h3
        exact ⟨ih.1, fun us _ => ih.2 us2 rfl⟩
      | error e =>
        simp only [Prod.mk.injEq] at h
        obtain ⟨h1, h2, h3⟩ := h
        subst h1; subst h2; subst h3
        exact ⟨ih.1, fun us hus => by cases hus⟩
    · cases fs with
      | nil =>
        rw [runUploads, hl] at h
        simp only [Prod.mk.injEq] at h
        obtain ⟨h1, h2, h3⟩ := h
        subst h1; subst h2; subst h3
        exact ⟨rfl, fun us hus => by cases hus⟩
      | cons f l =>
        rw [runUploads, hl] at h
        cases hso : env.streamOk i with
        | true =>
          rw [hso] at h
          simp only [uploadFileToFirebase, if_true] at h
          rcases hrec : runUploads env files rest (i + 1) with ⟨st2, tr2, r2⟩
          have ih := runUploads_trace env files rest (i + 1) st2 tr2 r2 hrec
          rw [hrec] at h
          cases r2 with
          | ok us2 =>
            simp only [Prod.mk.injEq] at h
            obtain ⟨h1, h2, h3⟩ := h
            subst h1; subst h2; subst h3
            constructor
            · simp only [sequentialUploads, Bool.and_eq_true, beq_self_eq_true]
              exact ⟨by simp, ih.1⟩
            · intro us _
              simp only [pairedUploads, Bool.and_eq_true, beq_self_eq_true]
              exact ⟨by simp, ih.2 us2 rfl⟩
          | error e =>
            simp only [Prod.mk.injEq] at h
            obtain ⟨h1, h2, h3⟩ := h
            subst h1; subst h2; subst h3
            constructor
            · simp only [sequentialUploads, Bool.and_eq_true, beq_self_eq_true]
              exact ⟨by simp, ih.1⟩
            · intro us hus; cases hus
        | false =>
          rw [hso] at h
          simp only [uploadFileToFirebase] at h
          simp only [Bool.false_eq_true, if_false, Prod.mk.injEq] at h
          obtain ⟨h1, h2, h3⟩ := h
          subst h1; subst h2; subst h3
          exact ⟨rfl, fun us hus => by cases hus⟩

theorem runUploads_ok_length (env : Env) (files : Files) :
    ∀ (slots : List String) (i : Nat) (st : List StoredObject) (tr : List Event)
      (us : List (Option String)),
      runUploads env files slots i = (st, tr, Except.ok us) →
      us.length = slots.length
  | [], i, st, tr, us, h => by
    simp only [runUploads, Prod.mk.injEq, Except.ok.injEq] at h
    simp [← h.2.2]
  | s :: rest, i, st, tr, us, h => by
    rcases hl : lookupKey s files with _ | fs
    · rw [runUploads, hl] at h
      rcases hrec : runUploads env files rest i with ⟨st2, tr2, r2⟩
      rw [hrec] at h
      cases r2 with
      | ok us2 =>
        simp only [Prod.mk.injEq, Except.ok.injEq] at h
        have ih := runUploads_ok_length env files rest i st2 tr2 us2 hrec
        rw [← h.2.2]
        simp [ih]
      | error e => simp at h
    · cases fs with
      | nil =>
        rw [runUploads, hl] at h
        simp at h
      | cons f l =>
        rw [runUploads, hl] at h
        cases hso : env.streamOk i with
        | true =>
          rw [hso] at h
          simp only [uploadFileToFirebase, if_true] at h
          rcases hrec : runUploads env files rest (i + 1) with ⟨st2, tr2, r2⟩
          rw [hrec] at h
          cases r2 with
          | ok us2 =>
            simp only [Prod.mk.injEq, Except.ok.injEq] at h
            have ih := runUploads_ok_length env files rest (i + 1) st2 tr2 us2 hrec
            rw [← h.2.2]
            simp [ih]
          | error e => simp at h
        | false =>
          rw [hso] at h
          simp only [uploadFileToFirebase, if_false] at h
          simp at h

theorem runUploads_ok_isSome (env : Env) (files : Files) :
    ∀ (slots : List String), (∀ s ∈ slots, (slotFile files s).isSome = true) →
      ∀ (i : Nat) (st : List StoredObject) (tr : List Event) (us : List (Option String)),
        runUploads env files slots i = (st, tr, Except.ok us) →
        ∀ u ∈ us, u.isSome = true
  | [], _, i, st, tr, us, h => by
    simp only [runUploads, Prod.mk.injEq, Except.ok.injEq] at h
    rw [← h.2.2]
    simp
  | s :: rest, hpres, i, st, tr, us, h => by
    have hs : (slotFile files s).isSome = true := hpres s (by simp)
    obtain ⟨f, l, hl⟩ := (slotFile_isSome_iff files s).mp hs
    have hrest : ∀ t ∈ rest, (slotFile files t).isSome = true :=
      fun t ht => hpres t (by simp [ht])
    rw [runUploads, hl] at h
    cases hso : env.streamOk i with
    | true =>
      rw [hso] at h
      simp only [uploadFileToFirebase, if_true] at h
      rcases hrec : runUploads env files rest (i + 1) with ⟨st2, tr2, r2⟩
      rw [hrec] at h
      cases r2 with
      | ok us2 =>
        simp only [Prod.mk.injEq, Except.ok.injEq] at h
        have ih := runUploads_ok_isSome env files rest hrest (i + 1) st2 tr2 us2 hrec
        rw [← h.2.2]
        intro u hu
        rcases List.mem_cons.mp hu with h1 | h1
        · rw [h1]; rfl
        · exact ih u h1
      | error e => simp at h
    | false =>
      rw [hso] at h
      simp only [uploadFileToFirebase, if_false] at h
      simp at h

theorem runUploads_all_ok (env : Env) (files : Files)
    (hup : ∀ i, env.streamOk i = true) :
    ∀ (slots : List String), (∀ s ∈ slots, (slotFile files s).isSome = true) →
      ∀ i : Nat, ∃ st tr us,
        runUploads env files slots i = (st, tr, Except.ok us)
  | [], _, i => ⟨[], [], [], rfl⟩
  | s :: rest, hpres, i => by
    have hs : (slotFile files s).isSome = true := hpres s (by simp)
    obtain ⟨f, l, hl⟩ := (slotFile_isSome_iff files s).mp hs
    have hrest : ∀ t ∈ rest, (slotFile files t).isSome = true :=
      fun t ht => hpres t (by simp [ht])
    obtain ⟨st2, tr2, us2, hrec⟩ := runUploads_all_ok env files hup rest hrest (i + 1)
    have hstep : runUploads env files (s :: rest) i =
        ({ name := env.uuid i ++ "_" ++ f.originalname, contentType := f.mimetype,
           bytes := f.buffer } :: st2,
         Event.uploadStart s :: Event.uploadFinish s :: tr2,
         Except.ok
           (some (publicUrl env.bucketName (env.uuid i ++ "_" ++ f.originalname)) :: us2)) := by
      simp [runUploads, hl, hup i, uploadFileToFirebase, hrec]
    exact ⟨_, _, _, hstep⟩

/-! ### Claim C1: failed validation means 400 and no side effects -/

theorem handleForm_validation_cases (cfg : ServiceConfig) (env : Env) (req : Request) :
    (firstMissingField req.body cfg.requiredFields = none ∧
     checkFiles req.files cfg.requiredFiles = none) ∨
    ((handleForm cfg env req).status = 400 ∧
     (handleForm cfg env req).stored = [] ∧
     (handleForm cfg env req).records = [] ∧
     (handleForm cfg env req).trace = []) := by
  rcases h1 : firstMissingField req.body cfg.requiredFields with _ | f
  · rcases h2 : checkFiles req.files cfg.requiredFiles with _ | e
    · exact Or.inl ⟨rfl, rfl⟩
    · refine Or.inr ?_
      simp [handleForm, h1, h2]
  · refine Or.inr ?_
    simp [handleForm, h1]

/-- C1: on each endpoint, either both validation middlewares pass (every
required field non-empty, every required file slot valid), or the
response is 400 with no object written to the bucket, no record
appended, and no upload or append even started. Contrapositively, any
upload or append activity implies full validation success. -/
theorem c1_validation_failure_no_effects (env : Env) (req : Request) :
    ((validateResearchForm req.body = none ∧ validateResearchFiles req.files = none) ∨
      ((handlePenelitian env req).status = 400 ∧ (handlePenelitian env req).stored = [] ∧
       (handlePenelitian env req).records = [] ∧ (handlePenelitian env req).trace = [])) ∧
    ((validateInternshipForm req.body = none ∧ validateInternshipFiles req.files = none) ∨
      ((handleMagang env req).status = 400 ∧ (handleMagang env req).stored = [] ∧
       (handleMagang env req).records = [] ∧ (handleMagang env req).trace = [])) :=
  ⟨handleForm_validation_cases researchConfig env req,
   handleForm_validation_cases magangConfig env req⟩

/-! ### Claim C7: uploads one at a time, all before the append -/

/-- C7: the event trace of any request splits into an upload part, in
which the up-to-three uploads run strictly one after the other (each
start immediately followed by its completion, except possibly one final
failed upload), followed by an append part made only of the append
events; so the record append never starts while an upload is pending,
and all completed uploads finished before it. -/
theorem c7_uploads_sequential_before_append (cfg : ServiceConfig) (env : Env) (req : Request) :
    ∃ up ap, (handleForm cfg env req).trace = up ++ ap ∧
      sequentialUploads up = true ∧
      (ap = [] ∨
        ((ap = [Event.appendStart] ∨ ap = [Event.appendStart, Event.appendFinish]) ∧
          pairedUploads up = true)) := by
  rcases h1 : firstMissingField req.body cfg.requiredFields with _ | f
  · rcases h2 : checkFiles req.files cfg.requiredFiles with _ | e
    · rcases hrun : runUploads env req.files cfg.requiredFiles 0 with ⟨st, tr, r⟩
      have htr := runUploads_trace env req.files cfg.requiredFiles 0 st tr r hrun
      cases r with
      | ok us =>
        have hpair := htr.2 us rfl
        cases happ : env.appendOk with
        | true =>
          refine ⟨tr, [Event.appendStart, Event.appendFinish], ?_, htr.1,
            Or.inr ⟨Or.inr rfl, hpair⟩⟩
          simp [handleForm, h1, h2, hrun, happ]
        | false =>
          refine ⟨tr, [Event.appendStart], ?_, htr.1, Or.inr ⟨Or.inl rfl, hpair⟩⟩
          simp [handleForm, h1, h2, hrun, happ]
      | error e =>
        refine ⟨tr, [], ?_, htr.1, Or.inl rfl⟩
        simp [handleForm, h1, h2, hrun]
    · exact ⟨[], [], by simp [handleForm, h1, h2], rfl, Or.inl rfl⟩
  · exact ⟨[], [], by simp [handleForm, h1], rfl, Or.inl rfl⟩

/-! ### Claim C8: contract of the upload helper -/

/-- C8: the helper stores the file under the fresh identifier joined by
an underscore to the original filename, tags the write stream with the
declared MIME type, writes the whole byte buffer, and on stream finish
resolves with the public URL computed purely from the bucket name and
the blob name; a stream error is propagated to the caller as a
rejection. -/
theorem c8_upload_helper_contract (bucketName uuid : String) (file : FileUpload) :
    uploadFileToFirebase bucketName uuid true file =
      Except.ok
        ({ name := uuid ++ "_" ++ file.originalname, contentType := file.mimetype,
           bytes := file.buffer },
         publicUrl bucketName (uuid ++ "_" ++ file.originalname)) ∧
    uploadFileToFirebase bucketName uuid false file = Except.error () :=
  ⟨rfl, rfl⟩

/-! ### Claim C5: upload or append failure gives the one generic 500 -/

/-- C5: once both validations passed, a failure of any upload stream or
of the Firestore append is answered with status 500 and the same
generic message in either case (the client cannot tell which step
failed), no record is appended, and every object successfully uploaded
before the failure is still in the bucket afterwards (no cleanup). -/
theorem c5_storage_failure_generic_500 (cfg : ServiceConfig) (env : Env) (req : Request)
    (hfields : firstMissingField req.body cfg.requiredFields = none)
    (hfiles : checkFiles req.files cfg.requiredFiles = none)
    (hfail : (runUploads env req.files cfg.requiredFiles 0).2.2 = Except.error () ∨
             env.appendOk = false) :
    (handleForm cfg env req).status = 500 ∧
    (handleForm cfg env req).message = "Terjadi kesalahan saat menyimpan data" ∧
    (handleForm cfg env req).records = [] ∧
    (handleForm cfg env req).stored = (runUploads env req.files cfg.requiredFiles 0).1 := by
  rcases hrun : runUploads env req.files cfg.requiredFiles 0 with ⟨st, tr, r⟩
  cases r with
  | ok us =>
    have happ : env.appendOk = false := by
      rcases hfail with hf | hf
      · rw [hrun] at hf
        simp at hf
      · exact hf
    simp [handleForm, hfields, hfiles, hrun, happ]
  | error e =>
    cases e
    simp [handleForm, hfields, hfiles, hrun]

/-! ### Claim C6: contents of the single appended record -/

/-- C6: when validation passes and all uploads and the append succeed,
exactly one record is appended, to the collection of the service type;
it contains every submitted required field with its value, one URL
field per required file slot, and the server-assigned timestamp
sentinel, never a client-supplied timestamp value. -/
theorem c6_record_contents (cfg : ServiceConfig) (env : Env) (req : Request)
    (st : List StoredObject) (tr : List Event) (us : List (Option String))
    (hfields : firstMissingField req.body cfg.requiredFields = none)
    (hfiles : checkFiles req.files cfg.requiredFiles = none)
    (hrun : runUploads env req.files cfg.requiredFiles 0 = (st, tr, Except.ok us))
    (happ : env.appendOk = true) :
    (handleForm cfg env req).status = 200 ∧
    (handleForm cfg env req).records = [mkRecord cfg req.body us] ∧
    (mkRecord cfg req.body us).collection = cfg.collectionPath ∧
    (∀ f v, f ∈ cfg.requiredFields → lookupKey f req.body = some v →
      (f, v) ∈ (mkRecord cfg req.body us).fields) ∧
    us.length = cfg.requiredFiles.length ∧
    (mkRecord cfg req.body us).urls = cfg.urlFieldNames.zip us ∧
    (mkRecord cfg req.body us).timestamp = Timestamp.server ∧
    (∀ sv : String, (mkRecord cfg req.body us).timestamp ≠ Timestamp.client sv) := by
  refine ⟨?_, ?_, rfl, ?_, ?_, rfl, rfl, ?_⟩
  · simp [handleForm, hfields, hfiles, hrun, happ]
  · simp [handleForm, hfields, hfiles, hrun, happ]
  · intro f v hf hv
    simp only [mkRecord]
    exact List.mem_map.mpr ⟨f, hf, by simp [hv]⟩
  · exact runUploads_ok_length env req.files cfg.requiredFiles 0 st tr us hrun
  · intro sv h
    simp [mkRecord] at h

/-! ### Claim C9: after file validation the null-URL branches are dead -/

/-- C9: whenever the file-validation middleware has passed, every
required slot is present with a non-empty file list, so the handler's
per-slot null branches cannot be taken, and every URL field of any
record the request appends is non-null. -/
theorem c9_null_branches_unreachable (cfg : ServiceConfig) (env : Env) (req : Request)
    (hfiles : checkFiles req.files cfg.requiredFiles = none) :
    (∀ s ∈ cfg.requiredFiles, ∃ f l, lookupKey s req.files = some (f :: l)) ∧
    (∀ r ∈ (handleForm cfg env req).records, ∀ p ∈ r.urls, p.2.isSome = true) := by
  have hok : ∀ s ∈ cfg.requiredFiles, slotOk req.files s = true :=
    (checkFiles_eq_none_iff req.files cfg.requiredFiles).mp hfiles
  have hpres : ∀ s ∈ cfg.requiredFiles, (slotFile req.files s).isSome = true := by
    intro s hs
    have h := hok s hs
    unfold slotOk at h
    rcases hsf : slotFile req.files s with _ | f
    · rw [hsf] at h
      cases h
    · rfl
  refine ⟨fun s hs => (slotFile_isSome_iff req.files s).mp (hpres s hs), ?_⟩
  intro r hr p hp
  rcases h1 : firstMissingField req.body cfg.requiredFields with _ | f
  · rcases hrun : runUploads env req.files cfg.requiredFiles 0 with ⟨st, tr, rr⟩
    cases rr with
    | ok us =>
      cases happ : env.appendOk with
      | true =>
        simp [handleForm, h1, hfiles, hrun, happ] at hr
        subst hr
        obtain ⟨a, b⟩ := p
        have hz := List.of_mem_zip hp
        exact runUploads_ok_isSome env req.files cfg.requiredFiles hpres 0 st tr us hrun b hz.2
      | false =>
        simp [handleForm, h1, hfiles, hrun, happ] at hr
    | error e =>
      simp [handleForm, h1, hfiles, hrun] at hr
  · simp [handleForm, h1] at hr

/-! ### Concrete requests and environments -/

/-- A small, well-formed PDF attachment (buffer starts with the PDF
magic bytes). -/
def pdfFile (nm : String) : FileUpload :=
  { originalname := nm, mimetype := "application/pdf", buffer := [37, 80, 68, 70] }

/-- A world in which every write stream finishes and the append
succeeds. -/
def envOk : Env :=
  { bucketName := "govservice-2024.appspot.com"
    uuid := fun i => "id" ++ toString i
    streamOk := fun _ => true
    appendOk := true }

/-- A world in which every write stream finishes but the Firestore
append fails. -/
def envNoAppend : Env :=
  { bucketName := "govservice-2024.appspot.com"
    uuid := fun i => "id" ++ toString i
    streamOk := fun _ => true
    appendOk := false }

/-- The fourteen research fields of the spec, all non-empty, with no
letterNumber value. -/
def researchBody14 : Body :=
  [("name", "x"), ("researcherName", "x"), ("address", "x"), ("inputValue", "x"),
   ("institution", "x"), ("occupation", "x"), ("judulPenelitian", "x"),
   ("researchField", "x"), ("tujuanPenelitian", "x"), ("supervisorName", "x"),
   ("teamMembers", "x"), ("statusPenelitian", "x"), ("researchPeriod", "x"),
   ("researchLocation", "x")]

/-- The same form with letterNumber supplied as well. -/
def researchBody15 : Body := ("letterNumber", "123/X/2024") :: researchBody14

/-- Three valid PDF attachments in the three research slots. -/
def researchFilesOk : Files :=
  [("suratPengantarFile", [pdfFile "surat.pdf"]),
   ("proposalFile", [pdfFile "proposal.pdf"]),
   ("ktpFile", [pdfFile "ktp.pdf"])]

/-- A research submission with the fourteen listed fields and three
valid PDFs but no letterNumber. -/
def reqNoLetterNumber : Request := { body := researchBody14, files := researchFilesOk }

/-- A fully valid research submission. -/
def reqResearchOk : Request := { body := researchBody15, files := researchFilesOk }

/-! ### Claim C2: corrected — letterNumber is required as well -/

/-- Counterexample to C2 as stated: a research submission with
non-empty values for the fourteen fields the claim lists (letterNumber
omitted as the claim permits) and three valid PDF attachments, in a
world where every upload and the append would succeed, is answered
with 400 naming letterNumber, and nothing is uploaded or appended —
not 200 with one record. -/
theorem c2_letterNumber_counterexample :
    (handlePenelitian envOk reqNoLetterNumber).status = 400 ∧
    (handlePenelitian envOk reqNoLetterNumber).message = "letterNumber is required" ∧
    (handlePenelitian envOk reqNoLetterNumber).records = [] ∧
    (handlePenelitian envOk reqNoLetterNumber).stored = [] :=
  ⟨rfl, rfl, rfl, rfl⟩

/-- A slot holding a file whose declared MIME type is application/pdf. -/
def slotHasPdf (files : Files) (s : String) : Bool :=
  match slotFile files s with
  | some f => f.mimetype == "application/pdf"
  | none => false

theorem slotHasPdf_to_slotOk (files : Files) (s : String) (h : slotHasPdf files s = true) :
    slotOk files s = true ∧ (slotFile files s).isSome = true := by
  unfold slotHasPdf at h
  rcases hsf : slotFile files s with _ | f
  · rw [hsf] at h
    cases h
  · rw [hsf] at h
    have hm : f.mimetype = "application/pdf" := by simpa using h
    unfold slotOk
    rw [hsf]
    simp [hm, allowedMimeTypes]

/-- C2 amended: the research endpoint requires letterNumber on top of
the fourteen listed fields; for every submission with non-empty values
for all fifteen required fields and a PDF in each of the three slots,
when the streams and the append succeed, the response is 200 and
exactly one record is appended to the research collection with three
non-null URL fields. -/
theorem c2_amended_success (env : Env) (req : Request)
    (hfields : ∀ f ∈ researchRequiredFields, fieldPresent req.body f = true)
    (hfiles : ∀ s ∈ researchRequiredFiles, slotHasPdf req.files s = true)
    (hup : ∀ i, env.streamOk i = true)
    (happ : env.appendOk = true) :
    (handlePenelitian env req).status = 200 ∧
    (handlePenelitian env req).message = "Data berhasil disimpan" ∧
    ∃ r, (handlePenelitian env req).records = [r] ∧
      r.collection = "pelayanan/penelitian/data" ∧
      r.urls.length = 3 ∧
      ∀ p ∈ r.urls, p.2.isSome = true := by
  have h1 : firstMissingField req.body researchRequiredFields = none :=
    (firstMissingField_eq_none_iff req.body researchRequiredFields).mpr hfields
  have hpres : ∀ s ∈ researchRequiredFiles, (slotFile req.files s).isSome = true :=
    fun s hs => (slotHasPdf_to_slotOk req.files s (hfiles s hs)).2
  have h2 : checkFiles req.files researchRequiredFiles = none :=
    (checkFiles_eq_none_iff req.files researchRequiredFiles).mpr
      (fun s hs => (slotHasPdf_to_slotOk req.files s (hfiles s hs)).1)
  obtain ⟨st, tr, us, hrun⟩ := runUploads_all_ok env req.files hup researchRequiredFiles hpres 0
  have hlen : us.length = 3 := by
    simpa using runUploads_ok_length env req.files researchRequiredFiles 0 st tr us hrun
  refine ⟨?_, ?_, mkRecord researchConfig req.body us, ?_, rfl, ?_, ?_⟩
  · simp [handlePenelitian, handleForm, researchConfig, h1, h2, hrun, happ]
  · simp [handlePenelitian, handleForm, researchConfig, h1, h2, hrun, happ]
  · simp [handlePenelitian, handleForm, researchConfig, h1, h2, hrun, happ]
  · simp [mkRecord, researchConfig, hlen]
  · intro p hp
    obtain ⟨a, b⟩ := p
    have hz := List.of_mem_zip hp
    exact runUploads_ok_isSome env req.files researchRequiredFiles hpres 0 st tr us hrun b hz.2

/-! ### Claim C10: only the declared MIME type matters, never the bytes -/

/-- Replacing the byte buffer of every uploaded file, keeping names and
declared MIME types. -/
def alterBuffers (g : List Nat → List Nat) (files : Files) : Files :=
  files.map (fun p => (p.1, p.2.map (fun f => { f with buffer := g f.buffer })))

theorem lookupKey_alterBuffers (g : List Nat → List Nat) (s : String) :
    ∀ files : Files,
      lookupKey s (alterBuffers g files) =
        (lookupKey s files).map (List.map (fun f => { f with buffer := g f.buffer }))
  | [] => rfl
  | (k, v) :: rest => by
    by_cases h : k = s
    · simp [alterBuffers, lookupKey, h]
    · simpa [alterBuffers, lookupKey, h] using lookupKey_alterBuffers g s rest

theorem checkFiles_alterBuffers (g : List Nat → List Nat) (files : Files) :
    ∀ slots : List String,
      checkFiles (alterBuffers g files) slots = checkFiles files slots
  | [] => rfl
  | s :: rest => by
    rcases h : lookupKey s files with _ | fs
    · simp [checkFiles, lookupKey_alterBuffers, h]
    · cases fs with
      | nil => simp [checkFiles, lookupKey_alterBuffers, h]
      | cons f l =>
        by_cases hm : f.mimetype ∈ allowedMimeTypes
        · simp [checkFiles, lookupKey_alterBuffers, h, hm,
            checkFiles_alterBuffers g files rest]
        · simp [checkFiles, lookupKey_alterBuffers, h, hm]

/-- Bytes that begin a real PDF document. -/
def looksLikePdf (bytes : List Nat) : Bool := List.isPrefixOf [37, 80, 68, 70] bytes

/-- Bytes that begin a real JPEG image. -/
def looksLikeJpeg (bytes : List Nat) : Bool := List.isPrefixOf [255, 216] bytes

/-- Bytes that begin a real PNG image. -/
def looksLikePng (bytes : List Nat) : Bool := List.isPrefixOf [137, 80, 78, 71] bytes

/-- A Windows executable (MZ header) declared as application/pdf. -/
def exeFile : FileUpload :=
  { originalname := "payload.exe", mimetype := "application/pdf",
    buffer := [77, 90, 144, 0] }

/-- A fully field-valid research submission whose proposal slot holds
the executable bytes declared as a PDF. -/
def reqExeAsPdf : Request :=
  { body := researchBody15
    files := [("suratPengantarFile", [pdfFile "surat.pdf"]),
              ("proposalFile", [exeFile]),
              ("ktpFile", [pdfFile "ktp.pdf"])] }

/-- C10: file validation is insensitive to the byte buffers (replacing
every buffer changes no validation outcome) and the stored content
type is exactly the declared MIME type; concretely, a file whose bytes
are not a PDF, JPEG, or PNG but whose declared type is application/pdf
passes the research file validator, the request succeeds with 200, the
executable bytes are stored in the bucket tagged application/pdf, and
a record is appended. -/
theorem c10_mime_declared_only :
    (∀ (g : List Nat → List Nat) (files : Files) (slots : List String),
      checkFiles (alterBuffers g files) slots = checkFiles files slots) ∧
    (∀ (b u : String) (f : FileUpload),
      uploadFileToFirebase b u true f =
        Except.ok
          ({ name := u ++ "_" ++ f.originalname, contentType := f.mimetype,
             bytes := f.buffer }, publicUrl b (u ++ "_" ++ f.originalname))) ∧
    looksLikePdf exeFile.buffer = false ∧
    looksLikeJpeg exeFile.buffer = false ∧
    looksLikePng exeFile.buffer = false ∧
    allowedMimeTypes.contains exeFile.mimetype = true ∧
    validateResearchFiles reqExeAsPdf.files = none ∧
    (handlePenelitian envOk reqExeAsPdf).status = 200 ∧
    (∃ o, o ∈ (handlePenelitian envOk reqExeAsPdf).stored ∧
      o.bytes = exeFile.buffer ∧ o.contentType = "application/pdf") ∧
    (handlePenelitian envOk reqExeAsPdf).records.length = 1 := by
  refine ⟨fun g files slots => checkFiles_alterBuffers g files slots,
    fun b u f => rfl, rfl, rfl, rfl, rfl, rfl, rfl, ?_, rfl⟩
  exact ⟨{ name := "id1_payload.exe", contentType := "application/pdf",
           bytes := [77, 90, 144, 0] }, by decide, rfl, rfl⟩

/-! ### Witnesses -/

/-- Witness for C2 amended at the concrete valid submission. -/
theorem c2_amended_success_witness :
    (handlePenelitian envOk reqResearchOk).status = 200 ∧
    (handlePenelitian envOk reqResearchOk).message = "Data berhasil disimpan" ∧
    ∃ r, (handlePenelitian envOk reqResearchOk).records = [r] ∧
      r.collection = "pelayanan/penelitian/data" ∧
      r.urls.length = 3 ∧
      ∀ p ∈ r.urls, p.2.isSome = true :=
  c2_amended_success envOk reqResearchOk (by decide) (by decide) (fun i => rfl) rfl

/-- A proposal slot declared with an executable MIME type. -/
def exeMimeFile : FileUpload :=
  { originalname := "proposal.exe", mimetype := "application/x-msdownload",
    buffer := [77, 90] }

/-- Research files whose proposal slot fails the MIME check. -/
def filesBadMime : Files :=
  [("suratPengantarFile", [pdfFile "surat.pdf"]),
   ("proposalFile", [exeMimeFile]),
   ("ktpFile", [pdfFile "ktp.pdf"])]

/-- Witness for C3 at a mapping whose first failing slot is the
proposal slot with a disallowed MIME type. -/
theorem c3_file_validator_witness :
    ((slotFile filesBadMime "proposalFile").isSome = false →
      fileValidatorResponse filesBadMime researchRequiredFiles =
        some (400, "File " ++ "proposalFile" ++ " is required")) ∧
    ((slotFile filesBadMime "proposalFile").isSome = true →
      fileValidatorResponse filesBadMime researchRequiredFiles =
        some (400, "File " ++ "proposalFile" ++ " must be a PDF, JPEG, or PNG")) ∧
    (∀ slots2 : List String,
      fileValidatorResponse filesBadMime slots2 = none ↔
        ∀ t ∈ slots2, slotOk filesBadMime t = true) :=
  c3_file_validator filesBadMime researchRequiredFiles ["suratPengantarFile"]
    ["ktpFile"] "proposalFile" rfl (by decide) (by decide)

/-- Witness for C4 at a body missing its first schema field. -/
theorem c4_field_validator_witness :
    fieldValidatorResponse researchBody14 researchRequiredFields =
      some (400, "letterNumber" ++ " is required") :=
  c4_field_validator researchBody14 researchRequiredFields []
    researchRequiredFields.tail "letterNumber" rfl (by simp) (by decide)

/-- Witness for C5 at a valid submission whose append fails. -/
theorem c5_storage_failure_witness :
    (handleForm researchConfig envNoAppend reqResearchOk).status = 500 ∧
    (handleForm researchConfig envNoAppend reqResearchOk).message =
      "Terjadi kesalahan saat menyimpan data" ∧
    (handleForm researchConfig envNoAppend reqResearchOk).records = [] ∧
    (handleForm researchConfig envNoAppend reqResearchOk).stored =
      (runUploads envNoAppend reqResearchOk.files researchConfig.requiredFiles 0).1 :=
  c5_storage_failure_generic_500 researchConfig envNoAppend reqResearchOk rfl rfl
    (Or.inr rfl)

/-- The upload section of the concrete valid submission in the
all-success world. -/
def uploadsResearchOk : List StoredObject × List Event × Except Unit (List (Option String)) :=
  runUploads envOk reqResearchOk.files researchConfig.requiredFiles 0

/-- The three URL variables that upload section produces. -/
def usResearchOk : List (Option String) :=
  [some (publicUrl "govservice-2024.appspot.com" "id0_surat.pdf"),
   some (publicUrl "govservice-2024.appspot.com" "id1_proposal.pdf"),
   some (publicUrl "govservice-2024.appspot.com" "id2_ktp.pdf")]

/-- Witness for C6 at the concrete valid submission. -/
theorem c6_record_contents_witness :
    (handleForm researchConfig envOk reqResearchOk).status = 200 ∧
    (handleForm researchConfig envOk reqResearchOk).records =
      [mkRecord researchConfig reqResearchOk.body usResearchOk] ∧
    (mkRecord researchConfig reqResearchOk.body usResearchOk).collection =
      researchConfig.collectionPath ∧
    (∀ f v, f ∈ researchConfig.requiredFields →
      lookupKey f reqResearchOk.body = some v →
      (f, v) ∈ (mkRecord researchConfig reqResearchOk.body usResearchOk).fields) ∧
    usResearchOk.length = researchConfig.requiredFiles.length ∧
    (mkRecord researchConfig reqResearchOk.body usResearchOk).urls =
      researchConfig.urlFieldNames.zip usResearchOk ∧
    (mkRecord researchConfig reqResearchOk.body usResearchOk).timestamp =
      Timestamp.server ∧
    (∀ sv : String,
      (mkRecord researchConfig reqResearchOk.body usResearchOk).timestamp ≠
        Timestamp.client sv) :=
  c6_record_contents researchConfig envOk reqResearchOk
    uploadsResearchOk.1 uploadsResearchOk.2.1 usResearchOk rfl rfl rfl rfl

/-- Witness for C9 at the concrete valid submission. -/
theorem c9_null_branches_witness :
    (∀ s ∈ researchConfig.requiredFiles,
      ∃ f l, lookupKey s reqResearchOk.files = some (f :: l)) ∧
    (∀ r ∈ (handleForm researchConfig envOk reqResearchOk).records,
      ∀ p ∈ r.urls, p.2.isSome = true) :=
  c9_null_branches_unreachable researchConfig envOk reqResearchOk rfl

end GovService
